import Mathlib

/-!
Verification of the go-test-watcher repository: a shallow embedding of the
watch-and-test loop (filenotify polling watcher, directory-walk registration,
test-argument construction from changed files and failed tests, and the
classification of captured `go test` output), together with theorems settling
the behavioural claims about it.

Strings are modelled by Lean `String`; the Go `strings`/`path/filepath`
library functions used by the code are given structurally recursive models
over `String.data` so that all definitions evaluate inside the kernel.
-/

namespace GoTestWatcher

/-! ## Models of the Go string library functions used by the watcher -/

/-- Whitespace test used by `strings.Fields` / `strings.TrimSpace`
(the watcher only meets ASCII whitespace). -/
def isSpace (c : Char) : Bool :=
  c = ' ' || c = '\t' || c = '\n' || c = '\r'

/-- Model of `strings.HasPrefix s pre`. -/
def strStartsWith (s pre : String) : Bool :=
  pre.data.isPrefixOf s.data

/-- Occurrence of a character list inside another; helper for `strContains`. -/
def infixOf (sub : List Char) : List Char → Bool
  | [] => sub.isEmpty
  | c :: rest => sub.isPrefixOf (c :: rest) || infixOf sub rest

/-- Model of `strings.Contains s sub`. -/
def strContains (s sub : String) : Bool :=
  infixOf sub.data s.data

/-- Split a character list at every occurrence of a separator character;
model of `strings.Split` for a one-character separator (the watcher only
splits on `"\n"` and `"/"`). -/
def splitOnChar (sep : Char) : List Char → List (List Char)
  | [] => [[]]
  | c :: rest =>
    match splitOnChar sep rest with
    | [] => [[]]
    | h :: t => if c = sep then [] :: h :: t else (c :: h) :: t

/-- Model of `strings.Split(s, "\n")`. -/
def linesOf (s : String) : List String :=
  (splitOnChar '\n' s.data).map String.mk

/-- Model of `strings.Split(s, "/")`. -/
def splitSlash (s : String) : List String :=
  (splitOnChar '/' s.data).map String.mk

/-- Accumulator pass for `fields`; `cur` holds the current field reversed. -/
def fieldsAux : List Char → List Char → List (List Char)
  | [], cur => if cur.isEmpty then [] else [cur.reverse]
  | c :: rest, cur =>
    if isSpace c then
      if cur.isEmpty then fieldsAux rest [] else cur.reverse :: fieldsAux rest []
    else fieldsAux rest (c :: cur)

/-- Model of `strings.Fields`. -/
def fields (s : String) : List String :=
  (fieldsAux s.data []).map String.mk

/-- Fuel-driven replacement; the fuel equals the length of the remaining
text, which bounds the number of steps, so the `0` case is never reached on
a non-empty pattern. -/
def replaceAllAux (old new : List Char) : Nat → List Char → List Char
  | _, [] => []
  | 0, l => l
  | fuel + 1, c :: rest =>
    if old.isPrefixOf (c :: rest) then
      new ++ replaceAllAux old new fuel (List.drop (old.length - 1) rest)
    else c :: replaceAllAux old new fuel rest

/-- Model of `strings.ReplaceAll s old new` for a non-empty `old`
(the watcher only strips the literal `"(cached)"`). -/
def replaceAll (s old new : String) : String :=
  String.mk (replaceAllAux old.data new.data s.data.length s.data)

/-- Model of `strings.TrimSpace`. -/
def trimSpace (s : String) : String :=
  String.mk (((s.data.dropWhile isSpace).reverse.dropWhile isSpace).reverse)

/-- Join path or package components; helper for `dirOf`. -/
def joinWith (sep : String) : List String → String
  | [] => ""
  | [s] => s
  | s :: rest => s ++ sep ++ joinWith sep rest

/-- Model of `path/filepath.Dir` on cleaned, slash-separated paths (the
shapes the watcher feeds it): everything before the final separator, `"."`
when there is none. -/
def dirOf (p : String) : String :=
  match (splitSlash p).dropLast with
  | [] => "."
  | ds => joinWith "/" ds

/-- Model of `path/filepath.Rel base target` in the cases the watcher
meets: equal paths, base `"."`, or a target lexically below the base.
Cases `Rel` reports as errors (and the `".."`-producing cases the watcher
never exercises) are `none`; the callers fall back to the raw directory. -/
def relTo (base target : String) : Option String :=
  if target = base then some "."
  else if base = "." then some target
  else if (base ++ "/").data.isPrefixOf target.data then
    some (String.mk (target.data.drop (base.data.length + 1)))
  else none

/-- Model of `path/filepath.Join` of a parent path and an entry name, as
produced by `filepath.Walk`. -/
def pathJoin (pre name : String) : String :=
  if pre = "" then name else pre ++ "/" ++ name

/-- Association-list lookup with propositional key comparison; model of a
Go map read. -/
def lookupAssoc {β : Type} (key : String) : List (String × β) → Option β
  | [] => none
  | (k, v) :: rest => if key = k then some v else lookupAssoc key rest

/-- Insert a key into a Go-map key set if absent; iteration order of a Go
map is unspecified, so the list order here is one fixed determinization. -/
def insertKey (x : String) (s : List String) : List String :=
  if x ∈ s then s else x :: s

/-- Key set accumulated by repeated Go-map insertion. -/
def dedupKeys (l : List String) : List String :=
  l.foldr insertKey []

/-! ## Outcome classification (`RunTests`, `src/unnamed/part_000`)

`part_000` carries two versions of `watcher.RunTests`.  Both compute
`failCount := strings.Count(outputStr, "--- FAIL")` but only compare it
against zero, and `Count s sub > 0` holds exactly when `Contains s sub`
does, so the models branch on `strContains`. -/

/-- RunVerdict outcome of one test run. -/
inductive Outcome where
  | buildFailure
  | testFailures
  | success
deriving DecidableEq

/-- Classifier of the first `RunTests` version (part_000 lines 290–342).
The Go condition `err != nil && Contains(out, "build failed") ||
Contains(out, "does not compile")` parses with `&&` binding tighter
than `||`, which the model reproduces. -/
def classifyRunV1 (exitFailed : Bool) (outputStr : String) : Outcome :=
  if (exitFailed && strContains outputStr "build failed")
      || strContains outputStr "does not compile" then
    Outcome.buildFailure
  else if exitFailed || strContains outputStr "--- FAIL" then
    Outcome.testFailures
  else
    Outcome.success

/-- Classifier of the second `RunTests` version (part_000 lines 682–977):
the build-failure markers are consulted only when the output holds no
`"--- FAIL"` occurrence at all. -/
def classifyRunV2 (exitFailed : Bool) (outputStr : String) : Outcome :=
  if exitFailed && !strContains outputStr "--- FAIL" then
    if strContains outputStr "build failed"
        || strContains outputStr "does not compile" then
      Outcome.buildFailure
    else
      Outcome.success
  else if exitFailed then
    Outcome.testFailures
  else
    Outcome.success

/-! ## Failed-test tracking (`RunTests`, part_000 lines 775–827) -/

/-- Package qualification applied before `TrackFailedTest`. -/
def qualifyTest (packageName testName : String) : String :=
  if packageName ≠ "unknown" then packageName ++ "/" ++ testName else testName

/-- Scan of the output lines that records failing tests: `FAIL\t` lines
update the current package name, and every `--- FAIL` line with a test-name
field contributes one (possibly package-qualified) identifier, in order. -/
def trackLoop (packageName : String) : List String → List String
  | [] => []
  | line :: rest =>
    if strStartsWith line "FAIL\t" then
      match fields line with
      | _ :: p :: _ => trackLoop p rest
      | _ => trackLoop packageName rest
    else if strStartsWith line "--- FAIL" then
      match fields line with
      | _ :: _ :: t :: _ => qualifyTest packageName t :: trackLoop packageName rest
      | _ => trackLoop packageName rest
    else trackLoop packageName rest

/-- Package name in force after scanning a list of lines, starting from
`packageName`; mirrors exactly the package-threading of `trackLoop`. -/
def pkgAfter (packageName : String) : List String → String
  | [] => packageName
  | line :: rest =>
    if strStartsWith line "FAIL\t" then
      match fields line with
      | _ :: p :: _ => pkgAfter p rest
      | _ => pkgAfter packageName rest
    else pkgAfter packageName rest

/-- Model of `TestWatcher.TrackFailedTest`: set-insert into the
failed-test map, keeping first-insertion order. -/
def trackFailedTest (failedTests : List String) (t : String) : List String :=
  if t ∈ failedTests then failedTests else failedTests ++ [t]

/-- Failed-test set after one classification pass over the captured output;
the Go loop starts with `packageName := "unknown"`. -/
def recordFailedTests (failedTests : List String) (outputStr : String) : List String :=
  (trackLoop "unknown" (linesOf outputStr)).foldl trackFailedTest failedTests

/-- Line that contributes an identifier to the tracking loop: a
`--- FAIL` prefix and at least three whitespace-delimited fields. -/
def isMarkerNameLine (line : String) : Bool :=
  strStartsWith line "--- FAIL" &&
    match fields line with
    | _ :: _ :: _ :: _ => true
    | _ => false

/-- Count of the claim's per-test `"--- FAIL:"` marker lines. -/
def failMarkerLineCount (outputStr : String) : Nat :=
  ((linesOf outputStr).filter (fun l => strStartsWith l "--- FAIL:")).length

/-! ## Duration extraction (`handleSuccessfulTests`, part_000 lines 365–396;
the same logic appears in `RunTests` of part_001 lines 228–256) -/

/-- Summary line the success handler stops at: `"ok"` prefix and at least
three whitespace-delimited fields. -/
def isOkSummaryLine (line : String) : Bool :=
  strStartsWith line "ok" &&
    match fields line with
    | _ :: _ :: _ :: _ => true
    | _ => false

/-- Fields of the first `"ok"`-prefixed line with at least three fields;
lines with an `"ok"` prefix but fewer fields are skipped, as in the source
(`break` only fires inside `len(parts) >= 3`). -/
def okLineFields : List String → Option (List String)
  | [] => none
  | l :: rest =>
    if strStartsWith l "ok" then
      match fields l with
      | f0 :: f1 :: f2 :: r => some (f0 :: f1 :: f2 :: r)
      | _ => okLineFields rest
    else okLineFields rest

/-- Duration reported on a successful run: `parts[2]` of the summary line
with the `"(cached)"` annotation removed and surrounding space trimmed;
`"unknown"` when no summary line qualifies. -/
def extractDuration (outputStr : String) : String :=
  match okLineFields (linesOf outputStr) with
  | some (_ :: _ :: d :: _) => trimSpace (replaceAll d "(cached)" "")
  | _ => "unknown"

/-! ## TestWatcher state and test-argument construction (part_000) -/

/-- State of `watcher.TestWatcher` relevant to scope resolution; the maps
`changedFiles` and `failedTests` are carried as key lists. -/
structure TestWatcher where
  watchDir : String
  withCoverage : Bool
  changedFiles : List String
  failedTests : List String
  packageDependencies : List (String × List String)

/-- Model of `TestWatcher.FindAffectedPackages`.  On the watcher's
platform `filepath.Separator` is `'/'`, so the source's
`strings.ReplaceAll(relDir, string(filepath.Separator), "/")` is the
identity and is elided. -/
def FindAffectedPackages (tw : TestWatcher) (changedFile : String) : List String :=
  let dir := dirOf changedFile
  let relDir :=
    match relTo tw.watchDir dir with
    | some r => r
    | none => dir
  let pkg := relDir
  [pkg] ++ ((lookupAssoc pkg tw.packageDependencies).getD [])

/-- Formatting of one package into a `go test` scope argument. -/
def fmtPkg (pkg : String) : String :=
  if pkg = "." || pkg = "" then "." else "./" ++ pkg

/-- Key set of the `packagesToTest` map built by `BuildTestArgs`: affected
packages of every changed file, then the part before the first `"/"` of
every failed-test identifier. -/
def packagesToTest (tw : TestWatcher) : List String :=
  dedupKeys ((tw.changedFiles.map (FindAffectedPackages tw)).flatten
    ++ tw.failedTests.map (fun t => (splitSlash t).headD ""))

/-- Model of `TestWatcher.BuildTestArgs` (part_000 lines 226–276). -/
def BuildTestArgs (tw : TestWatcher) : List String :=
  let args := ["test", "-v"] ++ (if tw.withCoverage then ["-cover"] else [])
  if tw.changedFiles.isEmpty && tw.failedTests.isEmpty then
    args ++ ["./..."]
  else if (packagesToTest tw).isEmpty then
    args ++ ["./..."]
  else
    args ++ (packagesToTest tw).map fmtPkg

/-- Model of `ClearFailedTests`. -/
def ClearFailedTests (tw : TestWatcher) : TestWatcher :=
  { tw with failedTests := [] }

/-- State effect and extracted duration of `handleSuccessfulTests`
(part_000 lines 365–419): the failed-test set is cleared and the duration
is read off the `"ok"` summary line; the formatted display string is
presentation-sink output and is not modelled. -/
def handleSuccessfulTests (tw : TestWatcher) (outputStr : String) :
    TestWatcher × String :=
  (ClearFailedTests tw, extractDuration outputStr)

/-! ## Scope resolution of the `RunTests(changedFiles)` version
(`src/unnamed/part_002`, lines 76–138) -/

/-- Directory unit contributed by one changed file: its directory taken
relative to the watch root (falling back to the raw directory when `Rel`
errs), with `"."` normalised to `"./"`. -/
def relDirOf (watchDir file : String) : String :=
  let dir := dirOf file
  let relDir :=
    match relTo watchDir dir with
    | some r => r
    | none => dir
  if relDir = "." then "./" else relDir

/-- Distinct directory units of a batch of changed files (the `dirs` map). -/
def scopeUnits (watchDir : String) (changedFiles : List String) : List String :=
  dedupKeys (changedFiles.map (relDirOf watchDir))

/-- Scope selector passed to `go test` by `RunTests` of part_002: one
directory unit is targeted, anything else runs `"./..."`. -/
def testDirFor (watchDir : String) (changedFiles : List String) : String :=
  if changedFiles.isEmpty then "./..."
  else
    match scopeUnits watchDir changedFiles with
    | [d] => "./" ++ d
    | _ => "./..."

/-! ## Polling watcher (`src/filenotify/poller.go`) -/

/-- Snapshot held per watched path (`filenotify.fileInfo`); the modification
time is modelled as integer ticks. -/
structure fileInfo where
  ModTime : Int
  Size : Int
  IsDir : Bool
deriving DecidableEq

/-- Operations of the fsnotify events the poller emits. -/
inductive FileOp where
  | Write
  | Remove
deriving DecidableEq

/-- One `fsnotify.Event` as produced by the poller. -/
structure FsEvent where
  Name : String
  Op : FileOp
deriving DecidableEq

/-- Result of one `os.Stat` call, as `checkFiles` distinguishes it:
a stat, a not-exist error, or any other error. -/
inductive StatResult where
  | found (info : fileInfo)
  | notExist
  | statError
deriving DecidableEq

/-- Output of one `checkFiles` pass: events and errors sent on the two
channels, and the surviving tracked-files map. -/
structure CheckResult where
  events : List FsEvent
  errors : List String
  files : List (String × fileInfo)
deriving DecidableEq

/-- Model of `PollingWatcher.checkFiles` (poller.go lines 131–173), one
polling tick over the tracked-files map.  The map is carried as an
association list; Go map iteration order is unspecified, so the list order
is one fixed determinization, and the error channel records the name whose
stat failed. -/
def checkFiles (stat : String → StatResult) :
    List (String × fileInfo) → CheckResult
  | [] => ⟨[], [], []⟩
  | (name, oldInfo) :: rest =>
    let r := checkFiles stat rest
    match stat name with
    | StatResult.notExist =>
      ⟨⟨name, FileOp.Remove⟩ :: r.events, r.errors, r.files⟩
    | StatResult.statError =>
      ⟨r.events, name :: r.errors, (name, oldInfo) :: r.files⟩
    | StatResult.found currentInfo =>
      if currentInfo.ModTime ≠ oldInfo.ModTime ∨ currentInfo.Size ≠ oldInfo.Size then
        ⟨⟨name, FileOp.Write⟩ :: r.events, r.errors, (name, currentInfo) :: r.files⟩
      else
        ⟨r.events, r.errors, (name, oldInfo) :: r.files⟩

/-- Model of `PollingWatcher.Remove` (poller.go lines 81–91): error when
the name is untracked, otherwise the entry is deleted from the map. -/
def PollingWatcherRemove (files : List (String × fileInfo)) (name : String) :
    Except String (List (String × fileInfo)) :=
  match lookupAssoc name files with
  | none => Except.error "file or directory is not being watched"
  | some _ => Except.ok (files.filter (fun kv => kv.1 ≠ name))

/-! ## Close idempotence (poller.go lines 104–110 and 228–242)

Per the Go specification, `close` of an already-closed channel panics;
the channel states below carry exactly that information. -/

/-- Result of one `Close` call. -/
inductive CloseOutcome where
  | ok
  | panicCloseOfClosedChannel
deriving DecidableEq

/-- Closeable state of a `PollingWatcher`: whether its `stop`, `events`
and `errors` channels have been closed. -/
structure PollingWatcherChans where
  stopClosed : Bool
  eventsClosed : Bool
  errorsClosed : Bool
deriving DecidableEq

/-- Model of `PollingWatcher.Close`: `close(w.stop)`, await the poll loop,
then `close(w.events)` and `close(w.errors)` — with no already-closed
guard, so a second call reaches `close` on the closed `stop` channel. -/
def PollingWatcherClose (w : PollingWatcherChans) :
    CloseOutcome × PollingWatcherChans :=
  if w.stopClosed then
    (CloseOutcome.panicCloseOfClosedChannel, w)
  else
    (CloseOutcome.ok, ⟨true, true, true⟩)

/-- Closeable state of an `EventWatcher`: the `stopped` flag and its two
channels. -/
structure EventWatcherChans where
  stopped : Bool
  eventsClosed : Bool
  errorsClosed : Bool
deriving DecidableEq

/-- Model of `EventWatcher.Close`: the `stopped` guard returns `nil` at
once on a second call; otherwise the fsnotify watcher and both channels
are closed (the fsnotify `Close` error is benign and not distinguished). -/
def EventWatcherClose (w : EventWatcherChans) :
    CloseOutcome × EventWatcherChans :=
  if w.stopped then
    (CloseOutcome.ok, w)
  else
    (CloseOutcome.ok, ⟨true, true, true⟩)

/-! ## Startup directory walk (`Watch`, src/watcher/watcher.go lines
200–216; identical callback in part_000 lines 103–119)

The file tree is a rose tree with the child list encoded as a sibling
chain, keeping all recursion structural; children are supplied in the
lexical order `filepath.Walk` uses. -/

mutual
/-- Tree of one filesystem entry: a plain file or a directory. -/
inductive FileTree where
  | file (name : String)
  | dir (name : String) (children : FileForest)
/-- Sibling chain of trees. -/
inductive FileForest where
  | nil
  | cons (t : FileTree) (ts : FileForest)
end

/-- One callback invocation of the walk: full path, entry base name
(`info.Name()`), and `info.IsDir()`. -/
structure VisitEntry where
  path : String
  name : String
  isDir : Bool
deriving DecidableEq

mutual
/-- Model of `filepath.Walk` under the `Watch` callback: the list of
entries whose callback ran, and the list of paths passed to
`watcher.Add`.  A directory whose name has the `"."` prefix returns
`filepath.SkipDir`, so only its own entry is visited; any other directory
is registered and its children walked; a file is visited and ignored. -/
def watchWalk (pre : String) : FileTree → List VisitEntry × List String
  | FileTree.file name => ([⟨pathJoin pre name, name, false⟩], [])
  | FileTree.dir name children =>
    if strStartsWith name "." then
      ([⟨pathJoin pre name, name, true⟩], [])
    else
      let r := watchWalkForest (pathJoin pre name) children
      (⟨pathJoin pre name, name, true⟩ :: r.1, pathJoin pre name :: r.2)
/-- Walk of a sibling chain, in order. -/
def watchWalkForest (pre : String) : FileForest → List VisitEntry × List String
  | FileForest.nil => ([], [])
  | FileForest.cons t ts =>
    let r1 := watchWalk pre t
    let r2 := watchWalkForest pre ts
    (r1.1 ++ r2.1, r1.2 ++ r2.2)
end

/-- Entries the walk callback registers: directories without the hidden
`"."` name prefix. -/
def registrable (e : VisitEntry) : Bool :=
  e.isDir && !strStartsWith e.name "."

/-- Sample source tree: a root with one file, one hidden directory with a
file under it, and one plain subdirectory. -/
def sampleTree : FileTree :=
  FileTree.dir "root" (FileForest.cons (FileTree.file "a.go")
    (FileForest.cons
      (FileTree.dir ".git" (FileForest.cons (FileTree.file "cfg") FileForest.nil))
      (FileForest.cons (FileTree.dir "pkg" FileForest.nil) FileForest.nil)))

/-- Sample stat outcome for one polling tick: `a.go` has disappeared,
everything else stats unchanged as `⟨3, 4, false⟩`. -/
def sampleStat : String → StatResult :=
  fun n => if n = "a.go" then StatResult.notExist else StatResult.found ⟨3, 4, false⟩

/-! ## Helper lemmas -/

theorem mem_insertKey {x y : String} {s : List String} :
    x ∈ insertKey y s ↔ x = y ∨ x ∈ s := by
  unfold insertKey
  by_cases h : y ∈ s
  · simp only [if_pos h]
    constructor
    · exact fun hx => Or.inr hx
    · rintro (rfl | hx)
      · exact h
      · exact hx
  · simp [if_neg h]

theorem mem_dedupKeys {x : String} {l : List String} :
    x ∈ dedupKeys l ↔ x ∈ l := by
  induction l with
  | nil => simp [dedupKeys]
  | cons y ys ih =>
    show x ∈ insertKey y (dedupKeys ys) ↔ _
    rw [mem_insertKey, ih]
    simp

theorem trackFailedTest_of_not_mem {s : List String} {t : String} (h : t ∉ s) :
    trackFailedTest s t = s ++ [t] := by
  simp [trackFailedTest, h]

theorem foldl_trackFailedTest_length :
    ∀ l init : List String, l.Nodup → (∀ x ∈ l, x ∉ init) →
      (l.foldl trackFailedTest init).length = init.length + l.length := by
  intro l
  induction l with
  | nil => intro init _ _; simp
  | cons x xs ih =>
    intro init hnd hdisj
    rw [List.foldl_cons, trackFailedTest_of_not_mem (hdisj x (List.mem_cons_self x xs))]
    have hd2 : ∀ y ∈ xs, y ∉ init ++ [x] := by
      intro y hy hmem
      rcases List.mem_append.mp hmem with hyinit | hyx
      · exact hdisj y (List.mem_cons_of_mem x hy) hyinit
      · rw [List.mem_singleton] at hyx
        subst hyx
        exact (List.nodup_cons.mp hnd).1 hy
    rw [ih (init ++ [x]) (List.Nodup.of_cons hnd) hd2]
    simp only [List.length_append, List.length_cons, List.length_nil]
    omega

theorem not_failTab_of_dashFail {l : String}
    (h : strStartsWith l "--- FAIL" = true) :
    strStartsWith l "FAIL\t" = false := by
  unfold strStartsWith at h ⊢
  cases hd : l.data with
  | nil => rw [hd] at h; simp [List.isPrefixOf] at h
  | cons c cs =>
    rw [hd] at h
    have hc : c = '-' := by
      simp only [show ("--- FAIL" : String).data
        = '-' :: '-' :: '-' :: ' ' :: 'F' :: 'A' :: 'I' :: 'L' :: [] from rfl,
        List.isPrefixOf, Bool.and_eq_true, beq_iff_eq] at h
      exact h.1.symm
    subst hc
    simp [show ("FAIL\t" : String).data = 'F' :: 'A' :: 'I' :: 'L' :: '\t' :: [] from rfl,
      List.isPrefixOf]

theorem trackLoop_append (l1 l2 : List String) (pkg : String) :
    trackLoop pkg (l1 ++ l2)
      = trackLoop pkg l1 ++ trackLoop (pkgAfter pkg l1) l2 := by
  induction l1 generalizing pkg with
  | nil => simp [trackLoop, pkgAfter]
  | cons line rest ih =>
    by_cases h1 : strStartsWith line "FAIL\t" = true
    · cases hf : fields line with
      | nil => simp [trackLoop, pkgAfter, h1, hf, ih]
      | cons f0 fs =>
        cases fs with
        | nil => simp [trackLoop, pkgAfter, h1, hf, ih]
        | cons p ps => simp [trackLoop, pkgAfter, h1, hf, ih]
    · by_cases h2 : strStartsWith line "--- FAIL" = true
      · cases hf : fields line with
        | nil => simp [trackLoop, pkgAfter, h1, h2, hf, ih]
        | cons f0 fs =>
          cases fs with
          | nil => simp [trackLoop, pkgAfter, h1, h2, hf, ih]
          | cons f1 fs2 =>
            cases fs2 with
            | nil => simp [trackLoop, pkgAfter, h1, h2, hf, ih]
            | cons t ts => simp [trackLoop, pkgAfter, h1, h2, hf, ih]
      · simp [trackLoop, pkgAfter, h1, h2, ih]

theorem trackLoop_length (lines : List String) (pkg : String) :
    (trackLoop pkg lines).length = (lines.filter isMarkerNameLine).length := by
  induction lines generalizing pkg with
  | nil => simp [trackLoop]
  | cons line rest ih =>
    by_cases h1 : strStartsWith line "FAIL\t" = true
    · have h2 : strStartsWith line "--- FAIL" = false := by
        cases hs : strStartsWith line "--- FAIL"
        · rfl
        · have := not_failTab_of_dashFail hs
          rw [h1] at this
          simp at this
      have hm : isMarkerNameLine line = false := by
        simp [isMarkerNameLine, h2]
      cases hf : fields line with
      | nil => simp [trackLoop, h1, hf, hm, ih]
      | cons f0 fs =>
        cases fs with
        | nil => simp [trackLoop, h1, hf, hm, ih]
        | cons p ps => simp [trackLoop, h1, hf, hm, ih]
    · by_cases h2 : strStartsWith line "--- FAIL" = true
      · cases hf : fields line with
        | nil =>
          have hm : isMarkerNameLine line = false := by simp [isMarkerNameLine, h2, hf]
          simp [trackLoop, h1, h2, hf, hm, ih]
        | cons f0 fs =>
          cases fs with
          | nil =>
            have hm : isMarkerNameLine line = false := by simp [isMarkerNameLine, h2, hf]
            simp [trackLoop, h1, h2, hf, hm, ih]
          | cons f1 fs2 =>
            cases fs2 with
            | nil =>
              have hm : isMarkerNameLine line = false := by simp [isMarkerNameLine, h2, hf]
              simp [trackLoop, h1, h2, hf, hm, ih]
            | cons t ts =>
              have hm : isMarkerNameLine line = true := by simp [isMarkerNameLine, h2, hf]
              simp [trackLoop, h1, h2, hf, hm, ih]
      · have h1f : strStartsWith line "FAIL\t" = false := by
          cases hs : strStartsWith line "FAIL\t"
          · rfl
          · exact absurd hs h1
        have h2f : strStartsWith line "--- FAIL" = false := by
          cases hs : strStartsWith line "--- FAIL"
          · rfl
          · exact absurd hs h2
        have hm : isMarkerNameLine line = false := by simp [isMarkerNameLine, h2f]
        simp [trackLoop, h1f, h2f, hm, ih]

/-! ## Claims -/

/-- C1 (counterexample): with a failing exit and an output that carries
both the `"build failed"` marker and a per-test `"--- FAIL"` marker, the
second `RunTests` version classifies the run as test failures, not as a
build failure. -/
theorem c1_counterexample :
    strContains "--- FAIL: TestX (0.00s)\nbuild failed" "build failed" = true ∧
    strContains "--- FAIL: TestX (0.00s)\nbuild failed" "--- FAIL" = true ∧
    classifyRunV2 true "--- FAIL: TestX (0.00s)\nbuild failed"
      = Outcome.testFailures := by
  refine ⟨by decide, by decide, by decide⟩

/-- C1 (amended): with a failing exit and a build-failure marker present,
the first `RunTests` version classifies the run as a build failure even
when per-test `"--- FAIL"` markers are present; the second version does so
only when the output carries no `"--- FAIL"` occurrence. -/
theorem c1_build_failure_precedence (out : String)
    (h : strContains out "build failed" = true
      ∨ strContains out "does not compile" = true) :
    classifyRunV1 true out = Outcome.buildFailure ∧
    (strContains out "--- FAIL" = false →
      classifyRunV2 true out = Outcome.buildFailure) := by
  constructor
  · unfold classifyRunV1
    rcases h with h | h <;> simp [h]
  · intro hf
    unfold classifyRunV2
    rcases h with h | h <;> simp [h, hf]

/-- C1 (witness): the amended theorem applied to an output holding both a
build-failure marker and a per-test failure marker. -/
theorem c1_build_failure_precedence_witness :
    (strContains "--- FAIL: TestY (0.01s)\nbuild failed" "build failed" = true
      ∨ strContains "--- FAIL: TestY (0.01s)\nbuild failed" "does not compile" = true) ∧
    (classifyRunV1 true "--- FAIL: TestY (0.01s)\nbuild failed" = Outcome.buildFailure ∧
      (strContains "--- FAIL: TestY (0.01s)\nbuild failed" "--- FAIL" = false →
        classifyRunV2 true "--- FAIL: TestY (0.01s)\nbuild failed" = Outcome.buildFailure)) :=
  ⟨Or.inl (by decide),
    c1_build_failure_precedence "--- FAIL: TestY (0.01s)\nbuild failed" (Or.inl (by decide))⟩

/-- C2 (code bug): a second `Close` of a fresh `PollingWatcher` reaches
`close` on the already-closed `stop` channel and panics, while the
`EventWatcher` `stopped` guard makes its double `Close` return benignly —
so the polling variant violates the idempotent-Close contract. -/
theorem c2_double_close :
    (PollingWatcherClose (PollingWatcherClose ⟨false, false, false⟩).2).1
      = CloseOutcome.panicCloseOfClosedChannel ∧
    (EventWatcherClose (EventWatcherClose ⟨false, false, false⟩).2).1
      = CloseOutcome.ok := by
  refine ⟨by decide, by decide⟩

/-- C6 (counterexample): a failing exit whose output carries neither a
`"--- FAIL"` marker nor a build-failure marker is routed by the first
`RunTests` version to the test-failure handler, not reported as a
success. -/
theorem c6_counterexample :
    strContains "exit status 1" "--- FAIL" = false ∧
    strContains "exit status 1" "build failed" = false ∧
    strContains "exit status 1" "does not compile" = false ∧
    classifyRunV1 true "exit status 1" = Outcome.testFailures := by
  refine ⟨by decide, by decide, by decide, by decide⟩

/-- C6 (amended): a failing exit with zero `"--- FAIL"` markers and no
build-failure marker is classified as a success by the second `RunTests`
version, while the first version routes the same run to the test-failure
handler. -/
theorem c6_zero_marker_fallback (out : String)
    (h1 : strContains out "--- FAIL" = false)
    (h2 : strContains out "build failed" = false)
    (h3 : strContains out "does not compile" = false) :
    classifyRunV2 true out = Outcome.success ∧
    classifyRunV1 true out = Outcome.testFailures := by
  constructor
  · unfold classifyRunV2
    simp [h1, h2, h3]
  · unfold classifyRunV1
    simp [h1, h2, h3]

/-- C5 (counterexample): an output with two identical `"--- FAIL:"` marker
lines and a failing exit enters the failure classification, but the
failed-test set — a set — ends with one entry, not two. -/
theorem c5_counterexample :
    failMarkerLineCount "--- FAIL: TestX (0.00s)\n--- FAIL: TestX (0.00s)" = 2 ∧
    classifyRunV2 true "--- FAIL: TestX (0.00s)\n--- FAIL: TestX (0.00s)"
      = Outcome.testFailures ∧
    recordFailedTests [] "--- FAIL: TestX (0.00s)\n--- FAIL: TestX (0.00s)"
      = ["TestX"] := by
  refine ⟨by decide, by decide, by decide⟩

/-- C5 (amended): classification extracts one identifier per `"--- FAIL"`
marker line carrying a test-name field — qualified as `package/test` using
the package of the closest preceding `"FAIL\t"` summary line, unqualified
while that package is still `"unknown"` — and set-inserts them into the
failed-test set, which therefore grows by exactly the marker-line count
when the extracted identifiers are pairwise distinct and not already
present. -/
theorem c5_failed_test_recording (init : List String) (out : String) :
    (trackLoop "unknown" (linesOf out)).length
      = ((linesOf out).filter isMarkerNameLine).length ∧
    ((trackLoop "unknown" (linesOf out)).Nodup →
      (∀ x ∈ trackLoop "unknown" (linesOf out), x ∉ init) →
      (recordFailedTests init out).length
        = init.length + (trackLoop "unknown" (linesOf out)).length) ∧
    (∀ pre post : List String, ∀ l f0 f1 t : String, ∀ r : List String,
      linesOf out = pre ++ l :: post →
      strStartsWith l "--- FAIL" = true →
      fields l = f0 :: f1 :: t :: r →
      trackLoop "unknown" (linesOf out)
        = trackLoop "unknown" pre
          ++ qualifyTest (pkgAfter "unknown" pre) t
            :: trackLoop (pkgAfter "unknown" pre) post) := by
  refine ⟨trackLoop_length _ _, ?_, ?_⟩
  · intro hnd hdisj
    unfold recordFailedTests
    exact foldl_trackFailedTest_length _ _ hnd hdisj
  · intro pre post l f0 f1 t r hsplit hfail hfields
    rw [hsplit, trackLoop_append]
    have h1 : strStartsWith l "FAIL\t" = false := not_failTab_of_dashFail hfail
    simp [trackLoop, h1, hfail, hfields]

/-- C5 (witness): the amended theorem applied to an output with one
`"FAIL\tpkgA"` summary line before one marker line; the recorded
identifier is the qualified `"pkgA/TestX"` and the set grows by one. -/
theorem c5_failed_test_recording_witness :
    (trackLoop "unknown" (linesOf "FAIL\tpkgA\n--- FAIL: TestX (0.00s)")).Nodup ∧
    (∀ x ∈ trackLoop "unknown" (linesOf "FAIL\tpkgA\n--- FAIL: TestX (0.00s)"),
      x ∉ ([] : List String)) ∧
    (recordFailedTests [] "FAIL\tpkgA\n--- FAIL: TestX (0.00s)").length
      = ([] : List String).length
        + (trackLoop "unknown" (linesOf "FAIL\tpkgA\n--- FAIL: TestX (0.00s)")).length ∧
    trackLoop "unknown" (linesOf "FAIL\tpkgA\n--- FAIL: TestX (0.00s)")
      = ["pkgA/TestX"] :=
  ⟨by decide, by decide,
    (c5_failed_test_recording [] "FAIL\tpkgA\n--- FAIL: TestX (0.00s)").2.1
      (by decide) (by decide),
    by decide⟩

/-- C6 (witness): the amended theorem applied to a marker-free failing
run. -/
theorem c6_zero_marker_fallback_witness :
    (strContains "go: downloading dependency" "--- FAIL" = false ∧
      strContains "go: downloading dependency" "build failed" = false ∧
      strContains "go: downloading dependency" "does not compile" = false) ∧
    (classifyRunV2 true "go: downloading dependency" = Outcome.success ∧
      classifyRunV1 true "go: downloading dependency" = Outcome.testFailures) :=
  ⟨⟨by decide, by decide, by decide⟩,
    c6_zero_marker_fallback "go: downloading dependency" (by decide) (by decide) (by decide)⟩

/-- Lines that are not `"ok"` summary lines with three fields are skipped
by the duration scan. -/
theorem okLineFields_append (pre rest : List String)
    (hpre : ∀ x ∈ pre, isOkSummaryLine x = false) :
    okLineFields (pre ++ rest) = okLineFields rest := by
  induction pre with
  | nil => simp
  | cons l ls ih =>
    have hl := hpre l (List.mem_cons_self l ls)
    have htail : ∀ x ∈ ls, isOkSummaryLine x = false :=
      fun x hx => hpre x (List.mem_cons_of_mem l hx)
    by_cases hok : strStartsWith l "ok" = true
    · cases hf : fields l with
      | nil => simp [okLineFields, hok, hf, ih htail]
      | cons f0 fs =>
        cases fs with
        | nil => simp [okLineFields, hok, hf, ih htail]
        | cons f1 fs2 =>
          cases fs2 with
          | nil => simp [okLineFields, hok, hf, ih htail]
          | cons f2 r =>
            exfalso
            simp [isOkSummaryLine, hok, hf] at hl
    · have hokf : strStartsWith l "ok" = false := by
        cases hs : strStartsWith l "ok"
        · rfl
        · exact absurd hs hok
      simp [okLineFields, hokf, ih htail]

/-- C8 (counterexample): for the summary line
`"ok example.com/pkg 0.123s"` the second whitespace-delimited field is the
package path, while the extracted duration is the third field. -/
theorem c8_counterexample :
    (fields "ok example.com/pkg 0.123s")[1]? = some "example.com/pkg" ∧
    extractDuration "ok example.com/pkg 0.123s" = "0.123s" ∧
    ("0.123s" : String) ≠ "example.com/pkg" := by
  refine ⟨by decide, by decide, by decide⟩

/-- C8 (amended): on the first line beginning with the `"ok"` token that
has at least three whitespace-delimited fields, the reported duration is
the THIRD whitespace-delimited field (the one after the package path),
with any `"(cached)"` annotation removed and surrounding space trimmed. -/
theorem c8_duration_third_field (out : String) (pre post : List String)
    (l f0 f1 f2 : String) (r : List String)
    (hlines : linesOf out = pre ++ l :: post)
    (hpre : ∀ x ∈ pre, isOkSummaryLine x = false)
    (hok : strStartsWith l "ok" = true)
    (hfields : fields l = f0 :: f1 :: f2 :: r) :
    extractDuration out = trimSpace (replaceAll f2 "(cached)" "") := by
  unfold extractDuration
  rw [hlines, okLineFields_append pre (l :: post) hpre]
  simp [okLineFields, hok, hfields]

theorem splitOnChar_ne_nil (sep : Char) (l : List Char) :
    splitOnChar sep l ≠ [] := by
  cases l with
  | nil => simp [splitOnChar]
  | cons c rest =>
    unfold splitOnChar
    cases h : splitOnChar sep rest with
    | nil => simp
    | cons hh tt => by_cases hc : c = sep <;> simp [hc]

theorem splitOnChar_cons (sep c : Char) (rest : List Char) :
    splitOnChar sep (c :: rest)
      = match splitOnChar sep rest with
        | [] => [[]]
        | h :: t => if c = sep then [] :: h :: t else (c :: h) :: t := rfl

theorem splitOnChar_sep_append (sep : Char) :
    ∀ l1 l2 : List Char, (∀ c ∈ l1, c ≠ sep) →
      splitOnChar sep (l1 ++ sep :: l2) = l1 :: splitOnChar sep l2 := by
  intro l1
  induction l1 with
  | nil =>
    intro l2 _
    show splitOnChar sep (sep :: l2) = [] :: splitOnChar sep l2
    rw [splitOnChar_cons]
    cases h : splitOnChar sep l2 with
    | nil => exact absurd h (splitOnChar_ne_nil sep l2)
    | cons hh tt => simp
  | cons c cs ih =>
    intro l2 hne
    have hc : c ≠ sep := hne c (List.mem_cons_self c cs)
    show splitOnChar sep (c :: (cs ++ sep :: l2)) = (c :: cs) :: splitOnChar sep l2
    rw [splitOnChar_cons, ih l2 (fun x hx => hne x (List.mem_cons_of_mem c hx))]
    simp [hc]

/-- Failed-test identifiers of the shape `package/TestName` yield their
package as `parts[0]` of the slash split. -/
theorem headD_splitSlash_qualified (pkg t : String) (h : '/' ∉ pkg.data) :
    (splitSlash (pkg ++ "/" ++ t)).headD "" = pkg := by
  unfold splitSlash
  have hdata : (pkg ++ "/" ++ t).data = pkg.data ++ '/' :: t.data := by
    rw [String.data_append, String.data_append]
    simp
  rw [hdata,
    splitOnChar_sep_append '/' pkg.data t.data (fun c hc heq => h (heq ▸ hc))]
  simp

theorem packagesToTest_nil_of_empty (tw : TestWatcher)
    (h1 : tw.changedFiles = []) (h2 : tw.failedTests = []) :
    packagesToTest tw = [] := by
  simp [packagesToTest, h1, h2, dedupKeys]

theorem BuildTestArgs_of_packages_ne_nil (tw : TestWatcher)
    (h : packagesToTest tw ≠ []) :
    BuildTestArgs tw = ["test", "-v"]
      ++ (if tw.withCoverage then ["-cover"] else [])
      ++ (packagesToTest tw).map fmtPkg := by
  have hbe : (tw.changedFiles.isEmpty && tw.failedTests.isEmpty) = false := by
    cases hcf : tw.changedFiles with
    | cons a l => simp [hcf]
    | nil =>
      cases hft : tw.failedTests with
      | cons a l => simp [hcf, hft]
      | nil => exact absurd (packagesToTest_nil_of_empty tw hcf hft) h
  have hpe : (packagesToTest tw).isEmpty = false := by
    cases hpt : packagesToTest tw with
    | nil => exact absurd hpt h
    | cons a l => simp [hpt]
  unfold BuildTestArgs
  simp [hbe, hpe]

/-- C3 (counterexample): two changed files in two distinct directory units
make `BuildTestArgs` emit one explicit scope argument per unit; the
all-packages scope `"./..."` is not among the invoked arguments. -/
theorem c3_counterexample :
    scopeUnits "." ["a/x.go", "b/y.go"] = ["a", "b"] ∧
    BuildTestArgs ⟨".", false, ["a/x.go", "b/y.go"], [], []⟩
      = ["test", "-v", "./a", "./b"] ∧
    "./..." ∉ BuildTestArgs ⟨".", false, ["a/x.go", "b/y.go"], [], []⟩ := by
  refine ⟨by decide, by decide, by decide⟩

/-- C3 (amended): one distinct directory unit yields a run targeted at
that unit alone under both dispatchers; with two or more distinct units
the part_002 dispatcher degrades to the all-packages scope `"./..."`,
while `BuildTestArgs` (part_000) instead passes one scope argument per
distinct affected package. -/
theorem c3_scope_collapse (watchDir : String) (files : List String)
    (tw : TestWatcher) :
    (∀ d : String, scopeUnits watchDir files = [d] →
      testDirFor watchDir files = "./" ++ d) ∧
    (files ≠ [] → 2 ≤ (scopeUnits watchDir files).length →
      testDirFor watchDir files = "./...") ∧
    (∀ u : String, packagesToTest tw = [u] →
      BuildTestArgs tw = ["test", "-v"]
        ++ (if tw.withCoverage then ["-cover"] else []) ++ [fmtPkg u]) ∧
    (packagesToTest tw ≠ [] →
      BuildTestArgs tw = ["test", "-v"]
        ++ (if tw.withCoverage then ["-cover"] else [])
        ++ (packagesToTest tw).map fmtPkg) := by
  refine ⟨?_, ?_, ?_, BuildTestArgs_of_packages_ne_nil tw⟩
  · intro d hd
    have hne : files ≠ [] := by
      intro hnil
      rw [hnil] at hd
      simp [scopeUnits, dedupKeys] at hd
    have hef : files.isEmpty = false := by
      cases hfs : files with
      | nil => exact absurd hfs hne
      | cons a l => simp
    unfold testDirFor
    rw [hef, hd]
    simp
  · intro hne hlen
    have hef : files.isEmpty = false := by
      cases hfs : files with
      | nil => exact absurd hfs hne
      | cons a l => simp
    unfold testDirFor
    rw [hef]
    cases hsu : scopeUnits watchDir files with
    | nil => simp [hsu] at hlen
    | cons d ds =>
      cases ds with
      | nil => rw [hsu] at hlen; simp at hlen
      | cons d2 ds2 => simp
  · intro u hu
    rw [BuildTestArgs_of_packages_ne_nil tw (by rw [hu]; exact List.cons_ne_nil u []), hu]
    simp

/-- C3 (witness): the amended theorem applied to the spec's own scenario:
files `a/x.go` and `a/y.go` target `./a`, files `a/x.go` and `b/y.go`
degrade to `"./..."` under part_002, and a single-unit `BuildTestArgs`
run targets that unit alone. -/
theorem c3_scope_collapse_witness :
    (scopeUnits "." ["a/x.go", "a/y.go"] = ["a"] ∧
      testDirFor "." ["a/x.go", "a/y.go"] = "./" ++ "a") ∧
    (2 ≤ (scopeUnits "." ["a/x.go", "b/y.go"]).length ∧
      testDirFor "." ["a/x.go", "b/y.go"] = "./...") ∧
    (packagesToTest ⟨".", false, ["a/x.go"], [], []⟩ = ["a"] ∧
      BuildTestArgs ⟨".", false, ["a/x.go"], [], []⟩
        = ["test", "-v"]
          ++ (if (⟨".", false, ["a/x.go"], [], []⟩ : TestWatcher).withCoverage
              then ["-cover"] else [])
          ++ [fmtPkg "a"]) :=
  ⟨⟨by decide,
      (c3_scope_collapse "." ["a/x.go", "a/y.go"] ⟨".", false, [], [], []⟩).1 "a" (by decide)⟩,
    ⟨by decide,
      (c3_scope_collapse "." ["a/x.go", "b/y.go"] ⟨".", false, [], [], []⟩).2.1
        (by decide) (by decide)⟩,
    ⟨by decide,
      (c3_scope_collapse "." [] ⟨".", false, ["a/x.go"], [], []⟩).2.2.1 "a" (by decide)⟩⟩

/-- C4 (counterexample): the program records failing tests qualified by
the full import path printed on `FAIL\t` lines; for the recorded
identifier `example.com/pkgA/TestX`, a zero-change run with a non-empty
failed-test set builds `["test", "-v", "./example.com"]` — only the first
slash-separated segment is targeted, no argument is `"./..."` and no
argument mentions `pkgA` at all, so the package `example.com/pkgA` is not
covered. -/
theorem c4_counterexample :
    recordFailedTests [] "FAIL\texample.com/pkgA\n--- FAIL: TestX (0.00s)"
      = ["example.com/pkgA/TestX"] ∧
    BuildTestArgs ⟨".", false, [], ["example.com/pkgA/TestX"], []⟩
      = ["test", "-v", "./example.com"] ∧
    "./..." ∉ BuildTestArgs ⟨".", false, [], ["example.com/pkgA/TestX"], []⟩ ∧
    ∀ a ∈ BuildTestArgs ⟨".", false, [], ["example.com/pkgA/TestX"], []⟩,
      strContains a "pkgA" = false := by
  refine ⟨by decide, by decide, by decide, by decide⟩

/-- C4 (amended): for every recorded failing-test identifier, a
subsequent run with a non-empty failed-test set includes the scope
argument formatted from the FIRST slash-separated segment of that
identifier — which covers the recorded package exactly when the package
qualifier is slash-free (`./pkg` for a recorded `pkg/TestName`), while a
multi-segment import path is targeted only at its first segment; and
after a fully green run `handleSuccessfulTests` leaves the failed-test
set empty, so the next zero-change run gets the all-packages scope
`"./..."`. -/
theorem c4_failure_memory (tw tw2 : TestWatcher) (out : String)
    (h6 : tw2.changedFiles = []) :
    (∀ t ∈ tw.failedTests,
      fmtPkg ((splitSlash t).headD "") ∈ BuildTestArgs tw) ∧
    (∀ pkg testName : String, pkg ++ "/" ++ testName ∈ tw.failedTests →
      '/' ∉ pkg.data → pkg ≠ "." → pkg ≠ "" →
      ("./" ++ pkg) ∈ BuildTestArgs tw) ∧
    (handleSuccessfulTests tw2 out).1.failedTests = [] ∧
    BuildTestArgs (handleSuccessfulTests tw2 out).1
      = ["test", "-v"] ++ (if tw2.withCoverage then ["-cover"] else [])
        ++ ["./..."] := by
  have hgen : ∀ t ∈ tw.failedTests,
      fmtPkg ((splitSlash t).headD "") ∈ BuildTestArgs tw := by
    intro t ht
    have hmem : (splitSlash t).headD "" ∈ packagesToTest tw := by
      apply mem_dedupKeys.mpr
      apply List.mem_append.mpr
      right
      exact List.mem_map_of_mem _ ht
    rw [BuildTestArgs_of_packages_ne_nil tw (List.ne_nil_of_mem hmem)]
    exact List.mem_append.mpr (Or.inr (List.mem_map_of_mem fmtPkg hmem))
  refine ⟨hgen, ?_, rfl, ?_⟩
  · intro pkg testName ht hslash hdot hempty
    have h := hgen (pkg ++ "/" ++ testName) ht
    rw [headD_splitSlash_qualified pkg testName hslash] at h
    rw [show fmtPkg pkg = "./" ++ pkg by simp [fmtPkg, hdot, hempty]] at h
    exact h
  · show BuildTestArgs (ClearFailedTests tw2) = _
    simp [BuildTestArgs, ClearFailedTests, h6]

/-- C4 (witness): the amended theorem applied to a watcher that recorded
the multi-segment `example.com/pkgA/TestX` (targeted at its first
segment `./example.com`) and the slash-free-package `pkgB/TestY`
(targeted at `./pkgB`), and to a second watcher going through a green
run. -/
theorem c4_failure_memory_witness :
    ("pkgB" ++ "/" ++ "TestY"
        ∈ (⟨".", false, [], ["example.com/pkgA/TestX", "pkgB/TestY"], []⟩
          : TestWatcher).failedTests ∧
      '/' ∉ ("pkgB" : String).data ∧
      fmtPkg ((splitSlash "example.com/pkgA/TestX").headD "") = "./example.com" ∧
      (⟨".", false, [], ["pkgB/TestY"], []⟩ : TestWatcher).changedFiles = []) ∧
    fmtPkg ((splitSlash "example.com/pkgA/TestX").headD "")
      ∈ BuildTestArgs ⟨".", false, [], ["example.com/pkgA/TestX", "pkgB/TestY"], []⟩ ∧
    ("./" ++ "pkgB")
      ∈ BuildTestArgs ⟨".", false, [], ["example.com/pkgA/TestX", "pkgB/TestY"], []⟩ ∧
    (handleSuccessfulTests ⟨".", false, [], ["pkgB/TestY"], []⟩
        "ok pkgB 0.2s").1.failedTests = [] ∧
    BuildTestArgs (handleSuccessfulTests ⟨".", false, [], ["pkgB/TestY"], []⟩
        "ok pkgB 0.2s").1
      = ["test", "-v"]
        ++ (if (⟨".", false, [], ["pkgB/TestY"], []⟩ : TestWatcher).withCoverage
            then ["-cover"] else [])
        ++ ["./..."] :=
  ⟨⟨by decide, by decide, by decide, by decide⟩,
    (c4_failure_memory ⟨".", false, [], ["example.com/pkgA/TestX", "pkgB/TestY"], []⟩
      ⟨".", false, [], ["pkgB/TestY"], []⟩ "ok pkgB 0.2s" (by decide)).1
      "example.com/pkgA/TestX" (by decide),
    (c4_failure_memory ⟨".", false, [], ["example.com/pkgA/TestX", "pkgB/TestY"], []⟩
      ⟨".", false, [], ["pkgB/TestY"], []⟩ "ok pkgB 0.2s" (by decide)).2.1
      "pkgB" "TestY" (by decide) (by decide) (by decide) (by decide),
    (c4_failure_memory ⟨".", false, [], ["example.com/pkgA/TestX", "pkgB/TestY"], []⟩
      ⟨".", false, [], ["pkgB/TestY"], []⟩ "ok pkgB 0.2s" (by decide)).2.2.1,
    (c4_failure_memory ⟨".", false, [], ["example.com/pkgA/TestX", "pkgB/TestY"], []⟩
      ⟨".", false, [], ["pkgB/TestY"], []⟩ "ok pkgB 0.2s" (by decide)).2.2.2⟩

theorem checkFiles_cons (stat : String → StatResult) (name : String)
    (oldInfo : fileInfo) (rest : List (String × fileInfo)) :
    checkFiles stat ((name, oldInfo) :: rest)
      = match stat name with
        | StatResult.notExist =>
          ⟨⟨name, FileOp.Remove⟩ :: (checkFiles stat rest).events,
            (checkFiles stat rest).errors, (checkFiles stat rest).files⟩
        | StatResult.statError =>
          ⟨(checkFiles stat rest).events, name :: (checkFiles stat rest).errors,
            (name, oldInfo) :: (checkFiles stat rest).files⟩
        | StatResult.found currentInfo =>
          if currentInfo.ModTime ≠ oldInfo.ModTime ∨ currentInfo.Size ≠ oldInfo.Size then
            ⟨⟨name, FileOp.Write⟩ :: (checkFiles stat rest).events,
              (checkFiles stat rest).errors,
              (name, currentInfo) :: (checkFiles stat rest).files⟩
          else
            ⟨(checkFiles stat rest).events, (checkFiles stat rest).errors,
              (name, oldInfo) :: (checkFiles stat rest).files⟩ := rfl

theorem checkFiles_events_names (stat : String → StatResult) :
    ∀ files : List (String × fileInfo),
      ∀ e ∈ (checkFiles stat files).events, e.Name ∈ files.map Prod.fst := by
  intro files
  induction files with
  | nil => intro e he; cases he
  | cons kv rest ih =>
    obtain ⟨name, oldInfo⟩ := kv
    intro e he
    rw [List.map_cons]
    cases hs : stat name with
    | notExist =>
      simp only [checkFiles_cons, hs] at he
      rcases List.mem_cons.mp he with rfl | he2
      · exact List.mem_cons_self _ _
      · exact List.mem_cons_of_mem _ (ih e he2)
    | statError =>
      simp only [checkFiles_cons, hs] at he
      exact List.mem_cons_of_mem _ (ih e he)
    | found cur =>
      simp only [checkFiles_cons, hs] at he
      by_cases hch : cur.ModTime ≠ oldInfo.ModTime ∨ cur.Size ≠ oldInfo.Size
      · rw [if_pos hch] at he
        rcases List.mem_cons.mp he with rfl | he2
        · exact List.mem_cons_self _ _
        · exact List.mem_cons_of_mem _ (ih e he2)
      · rw [if_neg hch] at he
        exact List.mem_cons_of_mem _ (ih e he)

theorem checkFiles_files_keys (stat : String → StatResult) :
    ∀ files : List (String × fileInfo),
      ∀ q ∈ (checkFiles stat files).files.map Prod.fst, q ∈ files.map Prod.fst := by
  intro files
  induction files with
  | nil => intro q hq; cases hq
  | cons kv rest ih =>
    obtain ⟨name, oldInfo⟩ := kv
    intro q hq
    rw [List.map_cons]
    cases hs : stat name with
    | notExist =>
      simp only [checkFiles_cons, hs] at hq
      exact List.mem_cons_of_mem _ (ih q hq)
    | statError =>
      simp only [checkFiles_cons, hs, List.map_cons] at hq
      rcases List.mem_cons.mp hq with heq | hq2
      · exact List.mem_cons.mpr (Or.inl heq)
      · exact List.mem_cons_of_mem _ (ih q hq2)
    | found cur =>
      simp only [checkFiles_cons, hs] at hq
      by_cases hch : cur.ModTime ≠ oldInfo.ModTime ∨ cur.Size ≠ oldInfo.Size
      · rw [if_pos hch] at hq
        rw [List.map_cons] at hq
        rcases List.mem_cons.mp hq with heq | hq2
        · exact List.mem_cons.mpr (Or.inl heq)
        · exact List.mem_cons_of_mem _ (ih q hq2)
      · rw [if_neg hch] at hq
        rw [List.map_cons] at hq
        rcases List.mem_cons.mp hq with heq | hq2
        · exact List.mem_cons.mpr (Or.inl heq)
        · exact List.mem_cons_of_mem _ (ih q hq2)

theorem checkFiles_filter_nil (stat : String → StatResult)
    (files : List (String × fileInfo)) (p : String)
    (hp : p ∉ files.map Prod.fst) :
    (checkFiles stat files).events.filter (fun e => e.Name = p) = [] := by
  rw [List.filter_eq_nil_iff]
  intro e he
  simp only [decide_eq_true_eq]
  intro hep
  exact hp (hep ▸ checkFiles_events_names stat files e he)

theorem lookupAssoc_eq_none_of_not_mem {β : Type} {p : String}
    {files : List (String × β)} (hp : p ∉ files.map Prod.fst) :
    lookupAssoc p files = none := by
  induction files with
  | nil => rfl
  | cons kv rest ih =>
    obtain ⟨k, v⟩ := kv
    have hpk : p ≠ k := by
      intro heq
      exact hp (by simp [heq])
    have hprest : p ∉ rest.map Prod.fst := by
      intro hmem
      exact hp (List.mem_cons_of_mem _ hmem)
    simp [lookupAssoc, hpk, ih hprest]

/-- Tick behaviour for a tracked path that has disappeared: one Remove
event, and the path leaves the tracked keys. -/
theorem checkFiles_remove_case (stat : String → StatResult) :
    ∀ files : List (String × fileInfo), (files.map Prod.fst).Nodup →
      ∀ p info, (p, info) ∈ files → stat p = StatResult.notExist →
        (checkFiles stat files).events.filter (fun e => e.Name = p)
          = [⟨p, FileOp.Remove⟩] ∧
        p ∉ (checkFiles stat files).files.map Prod.fst := by
  intro files
  induction files with
  | nil => intro _ p info hmem; cases hmem
  | cons kv rest ih =>
    obtain ⟨k, v⟩ := kv
    intro hnd p info hmem hstat
    have hnd2 : (k, v).1 ∉ rest.map Prod.fst ∧ (rest.map Prod.fst).Nodup := by
      rw [List.map_cons] at hnd
      exact List.nodup_cons.mp hnd
    have hknd : k ∉ rest.map Prod.fst := hnd2.1
    have hndrest : (rest.map Prod.fst).Nodup := hnd2.2
    rcases List.mem_cons.mp hmem with heq | hmem2
    · have hpk : p = k := congrArg Prod.fst heq
      subst hpk
      have hnotrest : p ∉ rest.map Prod.fst := hknd
      simp only [checkFiles_cons, hstat]
      refine ⟨?_, ?_⟩
      · rw [List.filter_cons, checkFiles_filter_nil stat rest p hnotrest]
        simp
      · intro hq
        exact hnotrest (checkFiles_files_keys stat rest p hq)
    · have hpk : p ≠ k := by
        intro heq
        subst heq
        exact hknd (List.mem_map_of_mem Prod.fst hmem2)
      have hrec := ih hndrest p info hmem2 hstat
      cases hs : stat k with
      | notExist =>
        simp only [checkFiles_cons, hs]
        refine ⟨?_, hrec.2⟩
        rw [List.filter_cons]
        simp only [decide_eq_true_eq]
        rw [if_neg (fun heq2 => hpk heq2.symm)]
        exact hrec.1
      | statError =>
        simp only [checkFiles_cons, hs]
        refine ⟨hrec.1, ?_⟩
        intro hq
        rw [List.map_cons] at hq
        rcases List.mem_cons.mp hq with heq2 | hq2
        · exact hpk heq2
        · exact hrec.2 hq2
      | found cur =>
        simp only [checkFiles_cons, hs]
        by_cases hch : cur.ModTime ≠ v.ModTime ∨ cur.Size ≠ v.Size
        · rw [if_pos hch]
          refine ⟨?_, ?_⟩
          · rw [List.filter_cons]
            simp only [decide_eq_true_eq]
            rw [if_neg (fun heq2 => hpk heq2.symm)]
            exact hrec.1
          · intro hq
            rw [List.map_cons] at hq
            rcases List.mem_cons.mp hq with heq2 | hq2
            · exact hpk heq2
            · exact hrec.2 hq2
        · rw [if_neg hch]
          refine ⟨hrec.1, ?_⟩
          intro hq
          rw [List.map_cons] at hq
          rcases List.mem_cons.mp hq with heq2 | hq2
          · exact hpk heq2
          · exact hrec.2 hq2

/-- Tick behaviour for a tracked path whose stat still succeeds: a Write
event and a refreshed snapshot exactly when the modification time or size
moved, no event and the old snapshot otherwise. -/
theorem checkFiles_found_case (stat : String → StatResult) :
    ∀ files : List (String × fileInfo), (files.map Prod.fst).Nodup →
      ∀ p info cur, (p, info) ∈ files → stat p = StatResult.found cur →
        ((cur.ModTime ≠ info.ModTime ∨ cur.Size ≠ info.Size) →
          (checkFiles stat files).events.filter (fun e => e.Name = p)
            = [⟨p, FileOp.Write⟩] ∧
          lookupAssoc p (checkFiles stat files).files = some cur) ∧
        (cur.ModTime = info.ModTime → cur.Size = info.Size →
          (checkFiles stat files).events.filter (fun e => e.Name = p) = [] ∧
          lookupAssoc p (checkFiles stat files).files = some info) := by
  intro files
  induction files with
  | nil => intro _ p info cur hmem; cases hmem
  | cons kv rest ih =>
    obtain ⟨k, v⟩ := kv
    intro hnd p info cur hmem hstat
    have hnd2 : (k, v).1 ∉ rest.map Prod.fst ∧ (rest.map Prod.fst).Nodup := by
      rw [List.map_cons] at hnd
      exact List.nodup_cons.mp hnd
    have hknd : k ∉ rest.map Prod.fst := hnd2.1
    have hndrest : (rest.map Prod.fst).Nodup := hnd2.2
    rcases List.mem_cons.mp hmem with heq | hmem2
    · have hpk : p = k := congrArg Prod.fst heq
      have hiv : info = v := congrArg Prod.snd heq
      subst hpk
      subst hiv
      have hnotrest : p ∉ rest.map Prod.fst := hknd
      simp only [checkFiles_cons, hstat]
      constructor
      · intro hch
        rw [if_pos hch]
        refine ⟨?_, ?_⟩
        · rw [List.filter_cons, checkFiles_filter_nil stat rest p hnotrest]
          simp
        · simp [lookupAssoc]
      · intro hmt hsz
        rw [if_neg (by simp [hmt, hsz])]
        refine ⟨checkFiles_filter_nil stat rest p hnotrest, ?_⟩
        simp [lookupAssoc]
    · have hpk : p ≠ k := by
        intro heq2
        subst heq2
        exact hknd (List.mem_map_of_mem Prod.fst hmem2)
      have hrec := ih hndrest p info cur hmem2 hstat
      cases hs : stat k with
      | notExist =>
        simp only [checkFiles_cons, hs]
        constructor
        · intro hch
          refine ⟨?_, (hrec.1 hch).2⟩
          rw [List.filter_cons]
          simp only [decide_eq_true_eq]
          rw [if_neg (fun heq2 => hpk heq2.symm)]
          exact (hrec.1 hch).1
        · intro hmt hsz
          refine ⟨?_, (hrec.2 hmt hsz).2⟩
          rw [List.filter_cons]
          simp only [decide_eq_true_eq]
          rw [if_neg (fun heq2 => hpk heq2.symm)]
          exact (hrec.2 hmt hsz).1
      | statError =>
        simp only [checkFiles_cons, hs]
        constructor
        · intro hch
          refine ⟨(hrec.1 hch).1, ?_⟩
          simp only [lookupAssoc, if_neg hpk]
          exact (hrec.1 hch).2
        · intro hmt hsz
          refine ⟨(hrec.2 hmt hsz).1, ?_⟩
          simp only [lookupAssoc, if_neg hpk]
          exact (hrec.2 hmt hsz).2
      | found curk =>
        simp only [checkFiles_cons, hs]
        by_cases hch2 : curk.ModTime ≠ v.ModTime ∨ curk.Size ≠ v.Size
        · rw [if_pos hch2]
          constructor
          · intro hch
            refine ⟨?_, ?_⟩
            · rw [List.filter_cons]
              simp only [decide_eq_true_eq]
              rw [if_neg (fun heq2 => hpk heq2.symm)]
              exact (hrec.1 hch).1
            · simp only [lookupAssoc, if_neg hpk]
              exact (hrec.1 hch).2
          · intro hmt hsz
            refine ⟨?_, ?_⟩
            · rw [List.filter_cons]
              simp only [decide_eq_true_eq]
              rw [if_neg (fun heq2 => hpk heq2.symm)]
              exact (hrec.2 hmt hsz).1
            · simp only [lookupAssoc, if_neg hpk]
              exact (hrec.2 hmt hsz).2
        · rw [if_neg hch2]
          constructor
          · intro hch
            refine ⟨(hrec.1 hch).1, ?_⟩
            simp only [lookupAssoc, if_neg hpk]
            exact (hrec.1 hch).2
          · intro hmt hsz
            refine ⟨(hrec.2 hmt hsz).1, ?_⟩
            simp only [lookupAssoc, if_neg hpk]
            exact (hrec.2 hmt hsz).2

/-- C7 (confirmed): on one polling tick over a well-formed tracked-files
map, a disappeared path produces exactly one Remove event and leaves the
map — so no later tick can emit an event for it; a surviving path with a
moved modification time or size produces exactly one Write event and a
refreshed snapshot; an unchanged path produces no event and keeps its
snapshot. -/
theorem c7_polling_tick (stat : String → StatResult)
    (files : List (String × fileInfo)) (p : String) (info : fileInfo)
    (hnd : (files.map Prod.fst).Nodup) (hp : (p, info) ∈ files) :
    (stat p = StatResult.notExist →
      (checkFiles stat files).events.filter (fun e => e.Name = p)
        = [⟨p, FileOp.Remove⟩] ∧
      lookupAssoc p (checkFiles stat files).files = none ∧
      ∀ stat2 : String → StatResult,
        (checkFiles stat2 (checkFiles stat files).files).events.filter
          (fun e => e.Name = p) = []) ∧
    (∀ cur, stat p = StatResult.found cur →
      cur.ModTime ≠ info.ModTime ∨ cur.Size ≠ info.Size →
      (checkFiles stat files).events.filter (fun e => e.Name = p)
        = [⟨p, FileOp.Write⟩] ∧
      lookupAssoc p (checkFiles stat files).files = some cur) ∧
    (∀ cur, stat p = StatResult.found cur →
      cur.ModTime = info.ModTime → cur.Size = info.Size →
      (checkFiles stat files).events.filter (fun e => e.Name = p) = [] ∧
      lookupAssoc p (checkFiles stat files).files = some info) := by
  refine ⟨?_, ?_, ?_⟩
  · intro hstat
    have h := checkFiles_remove_case stat files hnd p info hp hstat
    refine ⟨h.1, lookupAssoc_eq_none_of_not_mem h.2, ?_⟩
    intro stat2
    exact checkFiles_filter_nil stat2 (checkFiles stat files).files p h.2
  · intro cur hstat hch
    exact (checkFiles_found_case stat files hnd p info cur hp hstat).1 hch
  · intro cur hstat hmt hsz
    exact (checkFiles_found_case stat files hnd p info cur hp hstat).2 hmt hsz

/-- C7 (witness): the tick theorem applied to a two-entry map where
`a.go` has disappeared. -/
theorem c7_polling_tick_witness :
    (([("a.go", (⟨1, 2, false⟩ : fileInfo)),
        ("b.go", ⟨3, 4, false⟩)].map Prod.fst).Nodup ∧
      ("a.go", (⟨1, 2, false⟩ : fileInfo))
        ∈ [("a.go", (⟨1, 2, false⟩ : fileInfo)), ("b.go", ⟨3, 4, false⟩)] ∧
      sampleStat "a.go" = StatResult.notExist) ∧
    ((checkFiles sampleStat [("a.go", ⟨1, 2, false⟩),
        ("b.go", ⟨3, 4, false⟩)]).events.filter (fun e => e.Name = "a.go")
      = [⟨"a.go", FileOp.Remove⟩] ∧
    lookupAssoc "a.go" (checkFiles sampleStat [("a.go", ⟨1, 2, false⟩),
        ("b.go", ⟨3, 4, false⟩)]).files = none ∧
    ∀ stat2 : String → StatResult,
      (checkFiles stat2 (checkFiles sampleStat [("a.go", ⟨1, 2, false⟩),
          ("b.go", ⟨3, 4, false⟩)]).files).events.filter
        (fun e => e.Name = "a.go") = []) :=
  ⟨⟨by decide, by decide, by decide⟩,
    (c7_polling_tick sampleStat
      [("a.go", ⟨1, 2, false⟩), ("b.go", ⟨3, 4, false⟩)] "a.go" ⟨1, 2, false⟩
      (by decide) (by decide)).1 (by decide)⟩

theorem lookupAssoc_filter_self (files : List (String × fileInfo)) (name : String) :
    lookupAssoc name (files.filter (fun kv => kv.1 ≠ name)) = none := by
  induction files with
  | nil => rfl
  | cons kv rest ih =>
    obtain ⟨k, v⟩ := kv
    rw [List.filter_cons]
    by_cases h : k = name
    · rw [if_neg (by simp [h])]
      exact ih
    · rw [if_pos (by simp [h])]
      simp only [lookupAssoc]
      rw [if_neg (fun heq => h heq.symm)]
      exact ih

theorem lookupAssoc_filter_ne {files : List (String × fileInfo)} {name p : String}
    (hp : p ≠ name) :
    lookupAssoc p (files.filter (fun kv => kv.1 ≠ name)) = lookupAssoc p files := by
  induction files with
  | nil => rfl
  | cons kv rest ih =>
    obtain ⟨k, v⟩ := kv
    rw [List.filter_cons]
    by_cases h : k = name
    · rw [if_neg (by simp [h])]
      rw [ih]
      subst h
      simp only [lookupAssoc]
      rw [if_neg hp]
    · rw [if_pos (by simp [h])]
      simp only [lookupAssoc]
      by_cases hpk : p = k
      · rw [if_pos hpk, if_pos hpk]
      · rw [if_neg hpk, if_neg hpk, ih]

/-- C10 (confirmed): `PollingWatcher.Remove` errs exactly when the name is
untracked; on success the name is gone from the map and every other name
keeps its snapshot. -/
theorem c10_remove (files : List (String × fileInfo)) (name : String) :
    ((∃ e, PollingWatcherRemove files name = Except.error e)
      ↔ lookupAssoc name files = none) ∧
    (∀ files', PollingWatcherRemove files name = Except.ok files' →
      lookupAssoc name files' = none ∧
      ∀ p, p ≠ name → lookupAssoc p files' = lookupAssoc p files) := by
  constructor
  · constructor
    · rintro ⟨e, he⟩
      unfold PollingWatcherRemove at he
      cases hl : lookupAssoc name files with
      | none => rfl
      | some v => rw [hl] at he; cases he
    · intro hl
      unfold PollingWatcherRemove
      rw [hl]
      exact ⟨_, rfl⟩
  · intro files' hok
    unfold PollingWatcherRemove at hok
    cases hl : lookupAssoc name files with
    | none => rw [hl] at hok; cases hok
    | some v =>
      rw [hl] at hok
      cases hok
      exact ⟨lookupAssoc_filter_self files name, fun p hp => lookupAssoc_filter_ne hp⟩

/-- C10 (witness): removing a tracked name succeeds, after which it is
untracked and the other entry's snapshot is unchanged; removing it again
errs. -/
theorem c10_remove_witness :
    (PollingWatcherRemove [("a.go", ⟨1, 2, false⟩), ("b.go", ⟨3, 4, false⟩)] "a.go"
      = Except.ok [("b.go", ⟨3, 4, false⟩)]) ∧
    (lookupAssoc "a.go" [("b.go", (⟨3, 4, false⟩ : fileInfo))] = none ∧
      ∀ p, p ≠ "a.go" →
        lookupAssoc p [("b.go", (⟨3, 4, false⟩ : fileInfo))]
          = lookupAssoc p [("a.go", ⟨1, 2, false⟩), ("b.go", ⟨3, 4, false⟩)]) ∧
    (∃ e, PollingWatcherRemove [("b.go", (⟨3, 4, false⟩ : fileInfo))] "a.go"
      = Except.error e) :=
  ⟨rfl,
    (c10_remove [("a.go", ⟨1, 2, false⟩), ("b.go", ⟨3, 4, false⟩)] "a.go").2
      [("b.go", ⟨3, 4, false⟩)] rfl,
    ((c10_remove [("b.go", ⟨3, 4, false⟩)] "a.go").1).mpr rfl⟩

mutual
theorem watchWalk_registered (pre : String) (t : FileTree) :
    (watchWalk pre t).2
      = ((watchWalk pre t).1.filter registrable).map VisitEntry.path := by
  cases t with
  | file name => simp [watchWalk, registrable]
  | dir name children =>
    by_cases h : strStartsWith name "." = true
    · simp [watchWalk, h, registrable]
    · have hf : strStartsWith name "." = false := by
        cases hs : strStartsWith name "."
        · rfl
        · exact absurd hs h
      simp [watchWalk, hf, registrable,
        watchWalkForest_registered (pathJoin pre name) children]
theorem watchWalkForest_registered (pre : String) (ts : FileForest) :
    (watchWalkForest pre ts).2
      = ((watchWalkForest pre ts).1.filter registrable).map VisitEntry.path := by
  cases ts with
  | nil => simp [watchWalkForest]
  | cons t ts2 =>
    simp [watchWalkForest, List.filter_append, List.map_append,
      watchWalk_registered pre t, watchWalkForest_registered pre ts2]
end

/-- C9 (confirmed): the paths the startup walk registers are exactly the
visited directory entries whose base name lacks the `"."` prefix — so
files are never registered and hidden directories never are — and a
hidden directory's walk visits only the directory entry itself, never its
descendants. -/
theorem c9_walk_registration (pre : String) (t : FileTree) :
    (watchWalk pre t).2
      = ((watchWalk pre t).1.filter registrable).map VisitEntry.path ∧
    (∀ name : String, ∀ children : FileForest,
      strStartsWith name "." = true →
      watchWalk pre (FileTree.dir name children)
        = ([⟨pathJoin pre name, name, true⟩], [])) := by
  refine ⟨watchWalk_registered pre t, ?_⟩
  intro name children h
  simp [watchWalk, h]

/-- C9 (witness): the walk theorem applied to the sample tree; the hidden
`.git` subtree is visited only at its root and contributes no
registration, while `root` and `root/pkg` are registered. -/
theorem c9_walk_registration_witness :
    ((watchWalk "" sampleTree).2
      = ((watchWalk "" sampleTree).1.filter registrable).map VisitEntry.path ∧
      (watchWalk "" sampleTree).2 = ["root", "root/pkg"]) ∧
    (strStartsWith ".git" "." = true ∧
      watchWalk "root"
          (FileTree.dir ".git" (FileForest.cons (FileTree.file "cfg") FileForest.nil))
        = ([⟨"root/.git", ".git", true⟩], [])) :=
  ⟨⟨(c9_walk_registration "" sampleTree).1, by decide⟩,
    ⟨by decide,
      (c9_walk_registration "root" sampleTree).2 ".git"
        (FileForest.cons (FileTree.file "cfg") FileForest.nil) (by decide)⟩⟩

/-- C8 (witness): the amended theorem applied to the single summary line
`"ok pkg 0.015s"`. -/
theorem c8_duration_third_field_witness :
    (linesOf "ok pkg 0.015s" = [] ++ "ok pkg 0.015s" :: [] ∧
      strStartsWith "ok pkg 0.015s" "ok" = true ∧
      fields "ok pkg 0.015s" = "ok" :: "pkg" :: "0.015s" :: []) ∧
    extractDuration "ok pkg 0.015s" = trimSpace (replaceAll "0.015s" "(cached)" "") :=
  ⟨⟨by decide, by decide, by decide⟩,
    c8_duration_third_field "ok pkg 0.015s" [] [] "ok pkg 0.015s" "ok" "pkg" "0.015s" []
      (by decide) (fun x hx => absurd hx (List.not_mem_nil x)) (by decide) (by decide)⟩

end GoTestWatcher
